import Mathlib

/-!
Shallow embedding of `src/main.rs` of rxda/maven-uploader: a Maven
repository migration tool.  Filesystem, HTTP and database effects are
modelled by explicit oracles; paths are lists of components; strings of
the Rust code are Lean `String`s (treated as sequences of characters).
-/

namespace MavenUploader

/-- Substring test on character lists: `pat` occurs contiguously in `s`.
Models Rust `str::contains` with a string pattern. -/
def infixOf (pat : List Char) : List Char → Bool
  | [] => pat.isEmpty
  | c :: rest => pat.isPrefixOf (c :: rest) || infixOf pat rest

/-- Models Rust `str::contains(pattern)`. -/
def strContains (s pat : String) : Bool := infixOf pat.data s.data

/-- Models Rust `str::starts_with(pattern)`. -/
def startsW (s pat : String) : Bool := pat.data.isPrefixOf s.data

/-- Models Rust `str::ends_with(pattern)`. -/
def endsW (s pat : String) : Bool := pat.data.isSuffixOf s.data

/-- Models Rust `&s[n..]` taking a character tail; out-of-range yields `""`,
matching `str::get(n..).unwrap_or("")`. -/
def strTail (s : String) (n : Nat) : String := ⟨s.data.drop n⟩

/-- Models Rust `Vec::join(".")` as used for the groupId. -/
def joinDots : List String → String
  | [] => ""
  | [s] => s
  | s :: rest => s ++ "." ++ joinDots rest

/-- Models Rust `group_id.replace('.', "/")` (each dot becomes a slash). -/
def slashDots (s : String) : String := ⟨s.data.map (fun c => if c = '.' then '/' else c)⟩

/-- Models the Rust struct `MavenArtifact`: coordinates plus the list of
(file name, remote extension) pairs found next to the descriptor. -/
structure MavenArtifact where
  group_id : String
  artifact_id : String
  version : String
  files : List (String × String)
deriving DecidableEq, Repr

/-- The two failure modes of `extract_full_artifact` (the two `anyhow!`
errors of the Rust function): path not under the scan root, and a
relative path with fewer than 4 components. -/
inductive ResolutionError where
  | notUnderRoot
  | tooShallow
deriving DecidableEq, Repr

/-- Models Rust `Path::strip_prefix`: removes `root` from the front of a
component list, `none` when `root` is not a prefix. -/
def dropRoot : List String → List String → Option (List String)
  | [], p => some p
  | _ :: _, [] => none
  | r :: rs, x :: xs => if x = r then dropRoot rs xs else none

/-- The directory-scan loop of `extract_full_artifact`: every regular file
of the descriptor's parent directory whose name starts with
`{artifactId}-{version}`, is not a `_remote.repositories` marker and does
not end in `.lastUpdated` contributes a pair (name, extension), the
extension being the name's tail after the prefix plus one separator
character; empty extensions are dropped. -/
def artifactFiles (pfx : String) (listing : List String) : List (String × String) :=
  listing.filterMap (fun fname =>
    if startsW fname pfx && !strContains fname "_remote.repositories"
        && !endsW fname ".lastUpdated" then
      let ext := strTail fname (pfx.data.length + 1)
      if ext = "" then none else some (fname, ext)
    else none)

/-- Models Rust `extract_full_artifact`.  `absPom` stands for the
canonicalized descriptor path, `root` for the canonicalized scan root,
both as component lists; `listing` is the list of regular-file names in
the descriptor's parent directory (the `fs::read_dir` result). -/
def extract_full_artifact (absPom root : List String) (listing : List String) :
    Except ResolutionError MavenArtifact :=
  match dropRoot root absPom with
  | none => .error .notUnderRoot
  | some rel =>
    if rel.length < 4 then .error .tooShallow
    else
      let version := (rel.getD (rel.length - 2) "")
      let artifact_id := (rel.getD (rel.length - 3) "")
      let group_id := joinDots (rel.take (rel.length - 3))
      let pfx := artifact_id ++ "-" ++ version
      .ok { group_id, artifact_id, version, files := artifactFiles pfx listing }

/-- The redb table `uploads_v1`, modelled as an association list from
target-URL keys to mtime values; lookups read the most recent binding. -/
abbrev Store := List (String × Nat)

/-- A read transaction on the table: `table.get(key)`. -/
def dbGet (db : Store) (k : String) : Option Nat :=
  (db.find? (fun e => e.1 = k)).map (fun e => e.2)

/-- Models Rust `save_db_status`: a write transaction inserting
(upserting) `key -> mtime`; with most-recent-binding lookup semantics,
consing the new pair is exactly redb's overwriting insert. -/
def save_db_status (db : Store) (k : String) (mtime : Nat) : Store :=
  (k, mtime) :: db

/-- The key set of the store. -/
def dbKeys (db : Store) : List String := db.map (fun e => e.1)

/-- An HTTP request issued by `upload_file`, in issue order. -/
inductive HttpCall where
  | head (url : String)
  | put (url : String)
deriving DecidableEq, Repr

/-- The `anyhow::Result<()>` outcome of `upload_file`: `err` when a `?`
propagates an error (metadata or content read failure in this model). -/
inductive FileResult where
  | ok
  | err
deriving DecidableEq, Repr

/-- Per-file environment oracle: results of the filesystem and network
effects touching one file.  `mtime = none` models a failing
`fs::metadata`/`modified` chain; `readable = false` a failing `fs::read`;
`head`/`put` are `none` on transport error (`send()` returns `Err`) and
`some b` for a response whose `status().is_success()` is `b`. -/
structure FileOracle where
  mtime : Option Nat
  readable : Bool
  head : Option Bool
  put : Option Bool
deriving DecidableEq, Repr

/-- The transfer tail of `upload_file` (from `fs::read` to the end): read
the contents, issue the PUT, and on a success status record the mtime;
a non-success status or transport error only logs.  Returns the Rust
result, the HTTP calls issued by this tail, and the updated store. -/
def doTransfer (url : String) (mt : Nat) (o : FileOracle) (db : Store) :
    FileResult × List HttpCall × Store :=
  if o.readable then
    match o.put with
    | some true => (.ok, [.put url], save_db_status db url mt)
    | some false => (.ok, [.put url], db)
    | none => (.ok, [.put url], db)
  else (.err, [], db)

/-- Models Rust `upload_file` for one file with target URL `url`: read the
mtime; unless `force`, first check the store, then probe with HEAD; only
then transfer.  Returns the Rust result, the list of HTTP calls issued
(in order), and the resulting store. -/
def upload_file (force : Bool) (db : Store) (o : FileOracle) (url : String) :
    FileResult × List HttpCall × Store :=
  match o.mtime with
  | none => (.err, [], db)
  | some mt =>
    if force then doTransfer url mt o db
    else if dbGet db url = some mt then (.ok, [], db)
    else
      match o.head with
      | some true => (.ok, [.head url], save_db_status db url mt)
      | _ =>
        let r := doTransfer url mt o db
        (r.1, .head url :: r.2.1, r.2.2)

/-- Base-URL computation of `main`'s consumer loop: pick the snapshot URL
when the version ends in `-SNAPSHOT` and one is configured, else the
release URL, then append a `/` unless the chosen string already ends in
one. -/
def base_of (url : String) (snapshot_url : Option String) (version : String) : String :=
  let raw := if endsW version "-SNAPSHOT" then snapshot_url.getD url else url
  if endsW raw "/" then raw else raw ++ "/"

/-- Target-URL computation of `upload_file`:
`format!("{}{}/{}/{}/{}", base_url, group_path, artifact_id, version, file_name)`
with `file_name = format!("{}-{}.{}", artifact_id, version, remote_ext)`. -/
def target_url_of (base group_id artifact_id version remote_ext : String) : String :=
  base ++ slashDots group_id ++ "/" ++ artifact_id ++ "/" ++ version ++ "/"
    ++ (artifact_id ++ "-" ++ version ++ "." ++ remote_ext)

/-- Models Rust `is_excluded`: an artifact is excluded when an exclusion
pattern occurs in its artifactId or groupId, or when some `jar`/`war`
file whose metadata is readable has `len / 1024 / 1024 > max_size`.
`sizeOf` is the `fs::metadata(...).len()` oracle (`none` = metadata
error, in which case the size check is skipped for that file). -/
def is_excluded (art : MavenArtifact) (exclude : List String) (max_size : Nat)
    (sizeOf : String → Option Nat) : Bool :=
  exclude.any (fun pat => strContains art.artifact_id pat || strContains art.group_id pat)
  || art.files.any (fun f =>
      (f.2 = "jar" || f.2 = "war")
      && match sizeOf f.1 with
         | some n => decide (n / 1024 / 1024 > max_size)
         | none => false)

/-- Environment of the scanning thread: the canonicalized scan root, the
`fs::canonicalize` oracle for discovered paths, the parent-directory
listing oracle, the file-size oracle and the exclusion configuration. -/
structure ScanEnv where
  root : List String
  canon : List String → List String
  listing : List String → List String
  sizeOf : String → Option Nat
  exclude : List String
  max_size : Nat

/-- One iteration of the scanning thread's `for_each` body for a
discovered `path`: if the file name ends in `.pom` or equals `pom.xml`,
resolve the artifact; drop it when excluded; then atomically
check-and-insert the (raw, un-canonicalized) path into `processed_poms`
and enqueue the artifact only when the insert found no previous entry.
State: (`processed_poms` contents, queue of enqueued artifacts). -/
def scan_step (env : ScanEnv) (st : List (List String) × List MavenArtifact)
    (path : List String) : List (List String) × List MavenArtifact :=
  if endsW ((path.getLast?).getD "") ".pom" || ((path.getLast?).getD "") = "pom.xml" then
    match extract_full_artifact (env.canon path) env.root (env.listing path) with
    | .ok art =>
      if is_excluded art env.exclude env.max_size env.sizeOf then st
      else if path ∈ st.1 then st
      else (path :: st.1, st.2 ++ [art])
    | .error _ => st
  else st

/-- The whole scanning pass over the sequence of paths produced by the
directory walk. -/
def scan (env : ScanEnv) (paths : List (List String)) :
    List (List String) × List MavenArtifact :=
  paths.foldl (scan_step env) ([], [])

/-- The configuration fields of `Args` that the upload stage reads. -/
structure RunArgs where
  url : String
  snapshot_url : Option String
  force : Bool
deriving Repr

/-- The per-artifact file loop of `main`'s consumer:
`for (f_path, remote_ext) in &artifact.files { let _ = upload_file(...); }`.
Each file's result is discarded (`let _ =`) and the loop always moves to
the next file; the per-file results and HTTP calls are collected for
observation.  `oracle` maps a local file name to its effect oracle. -/
def process_files (force : Bool) (base : String) (art : MavenArtifact)
    (oracle : String → FileOracle) :
    List (String × String) → Store → Store × List (FileResult × List HttpCall)
  | [], db => (db, [])
  | f :: rest, db =>
    let url := target_url_of base art.group_id art.artifact_id art.version f.2
    let r := upload_file force db (oracle f.1) url
    let tail := process_files force base art oracle rest r.2.2
    (tail.1, (r.1, r.2.1) :: tail.2)

/-- One consumer iteration: compute the artifact's base URL, then process
all its files in order. -/
def process_artifact (args : RunArgs) (oracle : String → FileOracle)
    (db : Store) (art : MavenArtifact) : Store × List (FileResult × List HttpCall) :=
  process_files args.force (base_of args.url args.snapshot_url art.version)
    art oracle art.files db

/-- The upload stage over a whole queue of artifacts, threading the store. -/
def run_uploads (args : RunArgs) (oracle : String → FileOracle)
    (arts : List MavenArtifact) (db : Store) : Store :=
  arts.foldl (fun d a => (process_artifact args oracle d a).1) db

/-- The success condition under which `upload_file` writes a store
record: either the remote probe path (no force, store miss, HEAD with a
success status) or a transfer with a PUT success status that is actually
reached (force set, or store miss with no HEAD success). -/
def write_condition (force : Bool) (db : Store) (o : FileOracle) (url : String)
    (mt : Nat) : Prop :=
  (force = false ∧ dbGet db url ≠ some mt ∧ o.head = some true)
  ∨ (o.readable = true ∧ o.put = some true
     ∧ (force = true ∨ (dbGet db url ≠ some mt ∧ o.head ≠ some true)))

instance (force : Bool) (db : Store) (o : FileOracle) (url : String) (mt : Nat) :
    Decidable (write_condition force db o url mt) := by
  unfold write_condition
  infer_instance

/-! ## Helper lemmas -/

theorem dropRoot_append (root rel : List String) :
    dropRoot root (root ++ rel) = some rel := by
  induction root with
  | nil => rfl
  | cons r rs ih => simp [dropRoot, ih]

theorem extract_ok (root rel listing : List String) (h : 4 ≤ rel.length) :
    extract_full_artifact (root ++ rel) root listing =
      .ok { group_id := joinDots (rel.take (rel.length - 3)),
            artifact_id := rel.getD (rel.length - 3) "",
            version := rel.getD (rel.length - 2) "",
            files := artifactFiles
              ((rel.getD (rel.length - 3) "") ++ "-" ++ (rel.getD (rel.length - 2) ""))
              listing } := by
  unfold extract_full_artifact
  rw [dropRoot_append]
  simp only
  rw [if_neg (by omega)]

theorem startsW_append (s t : String) : startsW (s ++ t) s = true := by
  simp only [startsW, List.isPrefixOf_iff_prefix]
  exact ⟨t.data, rfl⟩

theorem endsW_append_ne (s t u : String) (ht : t.data ≠ []) (hu : u.data ≠ [])
    (h : t.data.getLast? ≠ u.data.getLast?) : endsW (s ++ t) u = false := by
  rw [Bool.eq_false_iff]
  intro hsuf
  rcases List.isSuffixOf_iff_suffix.mp hsuf with ⟨w, hw⟩
  apply h
  have h1 : (w ++ u.data).getLast? = u.data.getLast? :=
    List.getLast?_append_of_ne_nil _ hu
  have h2 : (s.data ++ t.data).getLast? = t.data.getLast? :=
    List.getLast?_append_of_ne_nil _ ht
  have hw' : w ++ u.data = s.data ++ t.data := hw
  rw [← h2, ← hw', h1]

theorem strTail_append (s t : String) (n : Nat) :
    strTail (s ++ t) (s.data.length + n) = strTail t n := by
  simp only [strTail]
  show String.mk (((s ++ t).data).drop (s.data.length + n)) = _
  rw [show (s ++ t).data = s.data ++ t.data from rfl, List.drop_append]

theorem artifactFiles_mem (pfx name : String) (listing : List String)
    (hmem : name ∈ listing) (h1 : startsW name pfx = true)
    (h2 : strContains name "_remote.repositories" = false)
    (h3 : endsW name ".lastUpdated" = false)
    (h4 : strTail name (pfx.length + 1) ≠ "") :
    (name, strTail name (pfx.length + 1)) ∈ artifactFiles pfx listing := by
  unfold artifactFiles
  apply List.mem_filterMap.mpr
  refine ⟨name, hmem, ?_⟩
  simp [h1, h2, h3, h4]

theorem endsW_self_append (s t : String) : endsW (s ++ t) t = true :=
  List.isSuffixOf_iff_suffix.mpr ⟨s.data, rfl⟩

theorem ne_true_of_eq_false {b : Bool} (h : b = false) : ¬(b = true) := by
  intro hcon
  rw [h] at hcon
  exact Bool.noConfusion hcon

theorem endsW_append_slash_not_double (s : String) (h : endsW s "/" = false) :
    endsW (s ++ "/") "//" = false := by
  rw [Bool.eq_false_iff]
  intro hsuf
  rcases List.isSuffixOf_iff_suffix.mp hsuf with ⟨w, hw⟩
  have hw' : (w ++ ['/']) ++ ['/'] = s.data ++ ['/'] := by
    simpa [List.append_assoc] using hw
  have hcancel : w ++ ['/'] = s.data := List.append_cancel_right hw'
  have hs : endsW s "/" = true := List.isSuffixOf_iff_suffix.mpr ⟨w, hcancel⟩
  rw [h] at hs
  exact Bool.noConfusion hs

theorem doTransfer_store_save (url : String) (mt : Nat) (o : FileOracle) (db : Store)
    (hr : o.readable = true) (hp : o.put = some true) :
    (doTransfer url mt o db).2.2 = save_db_status db url mt := by
  simp [doTransfer, hr, hp]

theorem doTransfer_store_id (url : String) (mt : Nat) (o : FileOracle) (db : Store)
    (h : ¬(o.readable = true ∧ o.put = some true)) :
    (doTransfer url mt o db).2.2 = db := by
  rcases hr : o.readable
  · simp [doTransfer, hr]
  · rcases hp : o.put with _ | b
    · simp [doTransfer, hr, hp]
    · cases b
      · simp [doTransfer, hr, hp]
      · exact absurd ⟨hr, hp⟩ h

theorem doTransfer_res_ok (url : String) (mt : Nat) (o : FileOracle) (db : Store)
    (hr : o.readable = true) : (doTransfer url mt o db).1 = .ok := by
  rcases hp : o.put with _ | b
  · simp [doTransfer, hr, hp]
  · cases b <;> simp [doTransfer, hr, hp]

theorem upload_file_force (db : Store) (o : FileOracle) (url : String) (mt : Nat)
    (hm : o.mtime = some mt) : upload_file true db o url = doTransfer url mt o db := by
  simp [upload_file, hm]

theorem upload_file_skip (db : Store) (o : FileOracle) (url : String) (mt : Nat)
    (hm : o.mtime = some mt) (hdb : dbGet db url = some mt) :
    upload_file false db o url = (.ok, [], db) := by
  simp [upload_file, hm, hdb]

theorem upload_file_headhit (db : Store) (o : FileOracle) (url : String) (mt : Nat)
    (hm : o.mtime = some mt) (hdb : dbGet db url ≠ some mt) (hh : o.head = some true) :
    upload_file false db o url = (.ok, [.head url], save_db_status db url mt) := by
  simp [upload_file, hm, hdb, hh]

theorem upload_file_transfer (db : Store) (o : FileOracle) (url : String) (mt : Nat)
    (hm : o.mtime = some mt) (hdb : dbGet db url ≠ some mt) (hh : o.head ≠ some true) :
    upload_file false db o url
      = ((doTransfer url mt o db).1, .head url :: (doTransfer url mt o db).2.1,
         (doTransfer url mt o db).2.2) := by
  rcases hh2 : o.head with _ | b
  · simp [upload_file, hm, hdb, hh2]
  · cases b
    · simp [upload_file, hm, hdb, hh2]
    · exact absurd hh2 hh

theorem doTransfer_calls (url : String) (mt : Nat) (o : FileOracle) (db : Store)
    (hr : o.readable = true) : (doTransfer url mt o db).2.1 = [.put url] := by
  rcases hp : o.put with _ | b
  · simp [doTransfer, hr, hp]
  · cases b <;> simp [doTransfer, hr, hp]

theorem process_files_length (force : Bool) (base : String) (art : MavenArtifact)
    (oracle : String → FileOracle) (files : List (String × String)) (db : Store) :
    (process_files force base art oracle files db).2.length = files.length := by
  induction files generalizing db with
  | nil => rfl
  | cons f rest ih => simp [process_files, ih]

theorem scan_step_ok (env : ScanEnv) (st : List (List String) × List MavenArtifact)
    (path : List String) (art : MavenArtifact)
    (hname : (endsW ((path.getLast?).getD "") ".pom"
        || decide (((path.getLast?).getD "") = "pom.xml")) = true)
    (hex : extract_full_artifact (env.canon path) env.root (env.listing path) = .ok art) :
    scan_step env st path
      = if is_excluded art env.exclude env.max_size env.sizeOf = true then st
        else if path ∈ st.1 then st else (path :: st.1, st.2 ++ [art]) := by
  unfold scan_step
  rw [if_pos hname, hex]

theorem scan_step_err (env : ScanEnv) (st : List (List String) × List MavenArtifact)
    (path : List String) (e : ResolutionError)
    (hname : (endsW ((path.getLast?).getD "") ".pom"
        || decide (((path.getLast?).getD "") = "pom.xml")) = true)
    (hex : extract_full_artifact (env.canon path) env.root (env.listing path)
      = .error e) :
    scan_step env st path = st := by
  unfold scan_step
  rw [if_pos hname, hex]

theorem scan_step_noname (env : ScanEnv) (st : List (List String) × List MavenArtifact)
    (path : List String)
    (hname : ¬(endsW ((path.getLast?).getD "") ".pom"
        || decide (((path.getLast?).getD "") = "pom.xml")) = true) :
    scan_step env st path = st := by
  unfold scan_step
  rw [if_neg hname]

theorem doTransfer_store_cases (url : String) (mt : Nat) (o : FileOracle) (db : Store) :
    (doTransfer url mt o db).2.2 = db
    ∨ (doTransfer url mt o db).2.2 = save_db_status db url mt := by
  rcases hr : o.readable
  · exact Or.inl (by simp [doTransfer, hr])
  · rcases hp : o.put with _ | b
    · exact Or.inl (by simp [doTransfer, hr, hp])
    · cases b
      · exact Or.inl (by simp [doTransfer, hr, hp])
      · exact Or.inr (by simp [doTransfer, hr, hp])

theorem upload_file_store_cases (force : Bool) (db : Store) (o : FileOracle)
    (url : String) :
    (upload_file force db o url).2.2 = db
    ∨ ∃ mt, (upload_file force db o url).2.2 = save_db_status db url mt := by
  rcases hm : o.mtime with _ | mt
  · cases force <;> exact Or.inl (by simp [upload_file, hm])
  · cases force
    · by_cases hdb : dbGet db url = some mt
      · exact Or.inl (by rw [upload_file_skip db o url mt hm hdb])
      · by_cases hh : o.head = some true
        · exact Or.inr ⟨mt, by rw [upload_file_headhit db o url mt hm hdb hh]⟩
        · rw [upload_file_transfer db o url mt hm hdb hh]
          rcases doTransfer_store_cases url mt o db with h | h
          · exact Or.inl h
          · exact Or.inr ⟨mt, h⟩
    · rw [upload_file_force db o url mt hm]
      rcases doTransfer_store_cases url mt o db with h | h
      · exact Or.inl h
      · exact Or.inr ⟨mt, h⟩

theorem upload_file_keys_mono (force : Bool) (db : Store) (o : FileOracle)
    (url : String) (k : String) (hk : k ∈ dbKeys db) :
    k ∈ dbKeys (upload_file force db o url).2.2 := by
  rcases upload_file_store_cases force db o url with h | ⟨mt, h⟩
  · rw [h]
    exact hk
  · rw [h]
    exact List.mem_cons_of_mem _ hk

theorem process_files_keys_mono (force : Bool) (base : String) (art : MavenArtifact)
    (oracle : String → FileOracle) (files : List (String × String)) (db : Store)
    (k : String) (hk : k ∈ dbKeys db) :
    k ∈ dbKeys (process_files force base art oracle files db).1 := by
  induction files generalizing db with
  | nil => exact hk
  | cons f rest ih =>
    exact ih _ (upload_file_keys_mono force db (oracle f.1) _ k hk)

theorem size_check_eq (sizeOf : String → Option Nat) (max_size : Nat) (p : String) :
    ((match sizeOf p with
      | some n => decide (n / 1024 / 1024 > max_size)
      | none => false) = true)
    ↔ ∃ n, sizeOf p = some n ∧ n / 1024 / 1024 > max_size := by
  rcases h : sizeOf p with _ | n <;> simp [h]

/-! ## Claims -/

/-- C2: coordinate resolution of a descriptor path under the scan root
with at least 4 relative segments yields version = second-to-last
segment, artifactId = third-to-last segment, groupId = remaining leading
segments joined with a dot (so `root/g1/g2/a/v/d` gives `g1.g2`); fewer
than 4 segments fail with the too-shallow error and a path not under the
root fails with the not-under-root error. -/
theorem c2_coordinate_resolution :
    (∀ (root rel listing : List String), 4 ≤ rel.length →
      extract_full_artifact (root ++ rel) root listing =
        .ok { group_id := joinDots (rel.take (rel.length - 3)),
              artifact_id := rel.getD (rel.length - 3) "",
              version := rel.getD (rel.length - 2) "",
              files := artifactFiles
                ((rel.getD (rel.length - 3) "") ++ "-" ++ (rel.getD (rel.length - 2) ""))
                listing })
    ∧ (∀ (root : List String) (g1 g2 a v d : String) (listing : List String),
        extract_full_artifact (root ++ [g1, g2, a, v, d]) root listing =
          .ok { group_id := g1 ++ "." ++ g2, artifact_id := a, version := v,
                files := artifactFiles (a ++ "-" ++ v) listing })
    ∧ (∀ (root rel listing : List String), rel.length < 4 →
        extract_full_artifact (root ++ rel) root listing = .error .tooShallow)
    ∧ (∀ (absPom root listing : List String), dropRoot root absPom = none →
        extract_full_artifact absPom root listing = .error .notUnderRoot) := by
  refine ⟨fun root rel listing h => extract_ok root rel listing h, ?_, ?_, ?_⟩
  · intro root g1 g2 a v d listing
    exact extract_ok root [g1, g2, a, v, d] listing (by simp)
  · intro root rel listing h
    unfold extract_full_artifact
    rw [dropRoot_append]
    simp only
    rw [if_pos h]
  · intro absPom root listing h
    unfold extract_full_artifact
    rw [h]

/-- C2 witness: concrete instances of every hypothesis of the resolution
theorem. -/
theorem c2_witness :
    (extract_full_artifact ["r", "g1", "g2", "aid", "ver", "d.pom"] ["r"]
        ["aid-ver.pom"]
      = .ok { group_id := "g1.g2", artifact_id := "aid", version := "ver",
              files := [("aid-ver.pom", "pom")] })
    ∧ extract_full_artifact ["r", "aid", "ver", "pom.xml"] ["r"] [] = .error .tooShallow
    ∧ extract_full_artifact ["q", "g", "aid", "ver", "pom.xml"] ["r"] []
        = .error .notUnderRoot :=
  ⟨c2_coordinate_resolution.2.1 ["r"] "g1" "g2" "aid" "ver" "d.pom" ["aid-ver.pom"],
   c2_coordinate_resolution.2.2.1 ["r"] ["aid", "ver", "pom.xml"] [] (by decide),
   c2_coordinate_resolution.2.2.2 ["q", "g", "aid", "ver", "pom.xml"] ["r"] [] (by decide)⟩

/-- C3 counterexample: for a descriptor named `pom.xml` (here under
`g1/g2/a/1.0/` with the only neighbouring prefixed file `a-1.0.jar`),
resolution succeeds but the file set contains neither the descriptor
`pom.xml` nor any entry with remote suffix `pom` — the claim that the
descriptor is always included with suffix `pom` fails. -/
theorem c3_counterexample :
    (extract_full_artifact ["g1", "g2", "a", "1.0", "pom.xml"] []
        ["pom.xml", "a-1.0.jar"]
      = .ok { group_id := "g1.g2", artifact_id := "a", version := "1.0",
              files := [("a-1.0.jar", "jar")] })
    ∧ (([("a-1.0.jar", "jar")] : List (String × String)).all
        (fun f => !(f.1 = "pom.xml") && !(f.2 = "pom")) = true) :=
  ⟨rfl, by decide⟩

/-- C3 (amended): the file set includes the descriptor with remote suffix
`pom` only when the descriptor is named `<artifactId>-<version>.pom`: in
that case the directory scan picks it up (provided its name does not
contain the `_remote.repositories` marker string); a descriptor named
`pom.xml` is not part of the file set. -/
theorem c3_descriptor_inclusion :
    ∀ (root rel listing : List String) (art : MavenArtifact),
      4 ≤ rel.length →
      extract_full_artifact (root ++ rel) root listing = .ok art →
      (art.artifact_id ++ "-" ++ art.version ++ ".pom") ∈ listing →
      strContains (art.artifact_id ++ "-" ++ art.version ++ ".pom")
          "_remote.repositories" = false →
      (art.artifact_id ++ "-" ++ art.version ++ ".pom", "pom") ∈ art.files := by
  intro root rel listing art h4 hex hmem hmark
  rw [extract_ok root rel listing h4] at hex
  injection hex with hex
  subst hex
  have hpom :
      strTail (((rel.getD (rel.length - 3) "") ++ "-" ++ (rel.getD (rel.length - 2) ""))
          ++ ".pom")
        (((rel.getD (rel.length - 3) "") ++ "-" ++ (rel.getD (rel.length - 2) "")).length + 1)
        = "pom" :=
    strTail_append ((rel.getD (rel.length - 3) "") ++ "-" ++ (rel.getD (rel.length - 2) ""))
      ".pom" 1
  have h := artifactFiles_mem
    ((rel.getD (rel.length - 3) "") ++ "-" ++ (rel.getD (rel.length - 2) ""))
    (((rel.getD (rel.length - 3) "") ++ "-" ++ (rel.getD (rel.length - 2) "")) ++ ".pom")
    listing hmem
    (startsW_append _ ".pom") hmark
    (endsW_append_ne _ ".pom" ".lastUpdated" (by decide) (by decide) (by decide))
    (by rw [hpom]; decide)
  rw [hpom] at h
  exact h

/-- C3 witness: the amended inclusion at a concrete artifact whose
descriptor is named `a-1.0.pom`. -/
theorem c3_witness :
    ("a-1.0.pom", "pom") ∈
      ({ group_id := "g1.g2", artifact_id := "a", version := "1.0",
         files := [("a-1.0.pom", "pom"), ("a-1.0.jar", "jar")] } : MavenArtifact).files :=
  c3_descriptor_inclusion [] ["g1", "g2", "a", "1.0", "a-1.0.pom"]
    ["a-1.0.pom", "a-1.0.jar"]
    { group_id := "g1.g2", artifact_id := "a", version := "1.0",
      files := [("a-1.0.pom", "pom"), ("a-1.0.jar", "jar")] }
    (by decide) (by rfl) (by decide) (by decide)

/-- C1: without the force flag, `upload_file` first reads the store and
skips with no HTTP call when the stored mtime matches; otherwise it
issues one HEAD and, on a success status, records the mtime and skips
without a PUT; only when both checks fail does it issue the PUT (after
the HEAD).  With the force flag, neither the store read nor the HEAD
happens and the PUT is always issued. -/
theorem c1_idempotency_protocol :
    ∀ (db : Store) (o : FileOracle) (url : String) (mt : Nat),
      o.mtime = some mt → o.readable = true →
      ((dbGet db url = some mt →
          upload_file false db o url = (.ok, [], db))
       ∧ (dbGet db url ≠ some mt → o.head = some true →
          upload_file false db o url = (.ok, [.head url], save_db_status db url mt))
       ∧ (dbGet db url ≠ some mt → o.head ≠ some true →
          (upload_file false db o url).2.1 = [.head url, .put url])
       ∧ (upload_file true db o url).2.1 = [.put url]) := by
  intro db o url mt hm hr
  refine ⟨?_, ?_, ?_, ?_⟩
  · intro h
    simp [upload_file, hm, h]
  · intro h hh
    simp [upload_file, hm, h, hh]
  · intro h hh
    rcases hh2 : o.head with _ | b
    · rcases hp : o.put with _ | c
      · simp [upload_file, hm, h, hh2, doTransfer, hr, hp]
      · cases c <;> simp [upload_file, hm, h, hh2, doTransfer, hr, hp]
    · cases b
      · rcases hp : o.put with _ | c
        · simp [upload_file, hm, h, hh2, doTransfer, hr, hp]
        · cases c <;> simp [upload_file, hm, h, hh2, doTransfer, hr, hp]
      · exact absurd hh2 hh
  · rcases hp : o.put with _ | c
    · simp [upload_file, hm, doTransfer, hr, hp]
    · cases c <;> simp [upload_file, hm, doTransfer, hr, hp]

/-- C1 witness: the four behaviours at concrete inputs — a matching store
entry skips silently, a HEAD hit records and skips, a double miss leads
to HEAD then PUT, and force goes straight to PUT. -/
theorem c1_witness :
    (upload_file false [("u", 5)] ⟨some 5, true, some true, some true⟩ "u"
      = (.ok, [], [("u", 5)]))
    ∧ (upload_file false [("u", 5)] ⟨some 7, true, some true, some true⟩ "u"
      = (.ok, [.head "u"], save_db_status [("u", 5)] "u" 7))
    ∧ ((upload_file false [("u", 5)] ⟨some 7, true, some false, some true⟩ "u").2.1
      = [.head "u", .put "u"])
    ∧ ((upload_file true [("u", 5)] ⟨some 5, true, some true, some true⟩ "u").2.1
      = [.put "u"]) :=
  ⟨(c1_idempotency_protocol [("u", 5)] ⟨some 5, true, some true, some true⟩ "u" 5
      rfl rfl).1 (by decide),
   (c1_idempotency_protocol [("u", 5)] ⟨some 7, true, some true, some true⟩ "u" 7
      rfl rfl).2.1 (by decide) rfl,
   (c1_idempotency_protocol [("u", 5)] ⟨some 7, true, some false, some true⟩ "u" 7
      rfl rfl).2.2.1 (by decide) (by decide),
   (c1_idempotency_protocol [("u", 5)] ⟨some 5, true, some true, some true⟩ "u" 5
      rfl rfl).2.2.2⟩

/-- C4 counterexample: with a configured release URL that itself ends in
two slashes, the base URL used for every HEAD/PUT keeps both of them —
it ends with `//`, not with exactly one `/`, falsifying the claim that
`{base}` always ends with exactly one `/`. -/
theorem c4_counterexample :
    base_of "http://r//" none "1.0" = "http://r//"
    ∧ endsW "http://r//" "//" = true
    ∧ target_url_of (base_of "http://r//" none "1.0") "com.example" "lib" "1.0" "pom"
      = "http://r//com/example/lib/1.0/lib-1.0.pom" :=
  ⟨rfl, by decide, rfl⟩

/-- C4 (amended): the target URL is
`{base}{group-with-dots-replaced-by-slashes}/{artifactId}/{version}/{artifactId}-{version}.{remoteSuffix}`
where `{base}` is the configured URL with a single `/` appended when it
does not already end in one — so it always ends with at least one `/`,
and with exactly one whenever the configured URL does not already end in
`/`; the snapshot URL is chosen exactly when the version ends in
`-SNAPSHOT` and a snapshot URL is configured, else the release URL. -/
theorem c4_target_url :
    (∀ (url : String) (snap : Option String) (v : String),
        endsW (base_of url snap v) "/" = true)
    ∧ (∀ (url : String) (snap : Option String) (v : String),
        endsW url "/" = false → endsW v "-SNAPSHOT" = false →
        base_of url snap v = url ++ "/" ∧ endsW (base_of url snap v) "//" = false)
    ∧ (∀ (url s v : String), endsW v "-SNAPSHOT" = true →
        base_of url (some s) v = (if endsW s "/" then s else s ++ "/"))
    ∧ (∀ (url v : String), base_of url none v
        = (if endsW url "/" then url else url ++ "/"))
    ∧ (∀ (url : String) (snap : Option String) (v : String),
        endsW v "-SNAPSHOT" = false →
        base_of url snap v = (if endsW url "/" then url else url ++ "/"))
    ∧ (∀ (base g a v e : String),
        target_url_of base g a v e
          = base ++ slashDots g ++ "/" ++ a ++ "/" ++ v ++ "/"
            ++ (a ++ "-" ++ v ++ "." ++ e)) := by
  refine ⟨?_, ?_, ?_, ?_, ?_, ?_⟩
  · intro url snap v
    unfold base_of
    by_cases h : endsW (if endsW v "-SNAPSHOT" then snap.getD url else url) "/" = true
    · rw [if_pos h]; exact h
    · rw [if_neg h]; exact endsW_self_append _ "/"
  · intro url snap v hurl hv
    have hbase : base_of url snap v = url ++ "/" := by
      unfold base_of
      rw [if_neg (ne_true_of_eq_false hv), if_neg (ne_true_of_eq_false hurl)]
    exact ⟨hbase, by rw [hbase]; exact endsW_append_slash_not_double url hurl⟩
  · intro url s v hv
    unfold base_of
    rw [if_pos hv]
    rfl
  · intro url v
    unfold base_of
    by_cases hv : endsW v "-SNAPSHOT" = true
    · rw [if_pos hv]; rfl
    · rw [if_neg hv]
  · intro url snap v hv
    unfold base_of
    rw [if_neg (ne_true_of_eq_false hv)]
  · intro base g a v e
    rfl

/-- C4 witness: concrete base URLs (release without a trailing slash,
snapshot routing, and the fallback of a snapshot version without a
configured snapshot URL) and a concrete target URL. -/
theorem c4_witness :
    endsW (base_of "http://r" none "1.0") "/" = true
    ∧ (base_of "http://r" (some "http://s") "1.0" = "http://r/"
        ∧ endsW (base_of "http://r" (some "http://s") "1.0") "//" = false)
    ∧ base_of "http://r" (some "http://s") "1.0-SNAPSHOT" = "http://s/"
    ∧ base_of "http://r" none "1.0-SNAPSHOT" = "http://r/"
    ∧ target_url_of "http://r/" "com.example" "lib" "1.0" "pom"
      = "http://r/" ++ slashDots "com.example" ++ "/" ++ "lib" ++ "/" ++ "1.0" ++ "/"
        ++ ("lib" ++ "-" ++ "1.0" ++ "." ++ "pom") := by
  refine ⟨c4_target_url.1 "http://r" none "1.0", ?_, ?_, ?_,
    c4_target_url.2.2.2.2.2 "http://r/" "com.example" "lib" "1.0" "pom"⟩
  · exact c4_target_url.2.1 "http://r" (some "http://s") "1.0" (by decide) (by decide)
  · have h := c4_target_url.2.2.1 "http://r" "http://s" "1.0-SNAPSHOT" (by decide)
    rw [h]
    rfl
  · have h := c4_target_url.2.2.2.1 "http://r" "1.0-SNAPSHOT"
    rw [h]
    rfl

/-- C5: the store is updated exactly when a reached PUT returns a success
status or the remote probe returns a success status (and then with the
mapping targetUrl to mtime); on a non-success PUT or a transport failure
no record is written and `upload_file` still returns Ok; when the mtime
cannot be read nothing is written either; and the per-artifact loop
always processes every file of the artifact (one outcome per file). -/
theorem c5_record_only_on_success :
    (∀ (force : Bool) (db : Store) (o : FileOracle) (url : String) (mt : Nat),
      o.mtime = some mt →
      ((write_condition force db o url mt →
          (upload_file force db o url).2.2 = save_db_status db url mt)
       ∧ (¬ write_condition force db o url mt →
          (upload_file force db o url).2.2 = db)
       ∧ (o.readable = true → (upload_file force db o url).1 = .ok)))
    ∧ (∀ (force : Bool) (db : Store) (o : FileOracle) (url : String),
        o.mtime = none → (upload_file force db o url).2.2 = db)
    ∧ (∀ (force : Bool) (base : String) (art : MavenArtifact)
        (oracle : String → FileOracle) (files : List (String × String)) (db : Store),
        (process_files force base art oracle files db).2.length = files.length) := by
  refine ⟨?_, ?_, process_files_length⟩
  · intro force db o url mt hm
    refine ⟨?_, ?_, ?_⟩
    · intro hwc
      cases force
      · rcases hwc with ⟨_, hdb, hh⟩ | ⟨hr, hp, hf | ⟨hdb, hh⟩⟩
        · rw [upload_file_headhit db o url mt hm hdb hh]
        · exact Bool.noConfusion hf
        · rw [upload_file_transfer db o url mt hm hdb hh]
          exact doTransfer_store_save url mt o db hr hp
      · rcases hwc with ⟨hf, _, _⟩ | ⟨hr, hp, _⟩
        · exact Bool.noConfusion hf
        · rw [upload_file_force db o url mt hm]
          exact doTransfer_store_save url mt o db hr hp
    · intro hwc
      cases force
      · by_cases hdb : dbGet db url = some mt
        · rw [upload_file_skip db o url mt hm hdb]
        · rcases hh : o.head with _ | b
          · rw [upload_file_transfer db o url mt hm hdb (by rw [hh]; intro h; cases h)]
            refine doTransfer_store_id url mt o db ?_
            rintro ⟨hr, hp⟩
            exact hwc (Or.inr ⟨hr, hp, Or.inr ⟨hdb, by rw [hh]; intro h; cases h⟩⟩)
          · cases b
            · rw [upload_file_transfer db o url mt hm hdb (by rw [hh]; intro h; cases h)]
              refine doTransfer_store_id url mt o db ?_
              rintro ⟨hr, hp⟩
              exact hwc (Or.inr ⟨hr, hp, Or.inr ⟨hdb, by rw [hh]; intro h; cases h⟩⟩)
            · exact absurd (Or.inl ⟨rfl, hdb, hh⟩) hwc
      · rw [upload_file_force db o url mt hm]
        refine doTransfer_store_id url mt o db ?_
        rintro ⟨hr, hp⟩
        exact hwc (Or.inr ⟨hr, hp, Or.inl rfl⟩)
    · intro hr
      cases force
      · by_cases hdb : dbGet db url = some mt
        · rw [upload_file_skip db o url mt hm hdb]
        · by_cases hh : o.head = some true
          · rw [upload_file_headhit db o url mt hm hdb hh]
          · rw [upload_file_transfer db o url mt hm hdb hh]
            exact doTransfer_res_ok url mt o db hr
      · rw [upload_file_force db o url mt hm]
        exact doTransfer_res_ok url mt o db hr
  · intro force db o url hm
    cases force <;> simp [upload_file, hm]

/-- C5 witness: at concrete inputs — a PUT success writes the record, a
PUT with a failure status writes nothing yet returns Ok, a transport
error writes nothing, and a two-file artifact yields two outcomes. -/
theorem c5_witness :
    ((upload_file false [] ⟨some 4, true, some false, some true⟩ "u").2.2
      = save_db_status [] "u" 4)
    ∧ ((upload_file false [] ⟨some 4, true, some false, some false⟩ "u").2.2 = [])
    ∧ ((upload_file false [] ⟨some 4, true, some false, some false⟩ "u").1 = .ok)
    ∧ ((upload_file false [] ⟨some 4, true, none, none⟩ "u").2.2 = [])
    ∧ ((process_files false "b" ⟨"g", "a", "1", [("a-1.pom", "pom"), ("a-1.jar", "jar")]⟩
          (fun _ => ⟨some 4, true, some false, some false⟩)
          [("a-1.pom", "pom"), ("a-1.jar", "jar")] []).2.length = 2) :=
  ⟨(c5_record_only_on_success.1 false [] ⟨some 4, true, some false, some true⟩ "u" 4
      rfl).1 (by decide),
   (c5_record_only_on_success.1 false [] ⟨some 4, true, some false, some false⟩ "u" 4
      rfl).2.1 (by decide),
   (c5_record_only_on_success.1 false [] ⟨some 4, true, some false, some false⟩ "u" 4
      rfl).2.2 rfl,
   (c5_record_only_on_success.1 false [] ⟨some 4, true, none, none⟩ "u" 4
      rfl).2.1 (by decide),
   c5_record_only_on_success.2.2 false "b"
     ⟨"g", "a", "1", [("a-1.pom", "pom"), ("a-1.jar", "jar")]⟩
     (fun _ => ⟨some 4, true, some false, some false⟩)
     [("a-1.pom", "pom"), ("a-1.jar", "jar")] []⟩

/-- C6 counterexample: with a configured maximum of 0 MiB, a jar file of
1 byte exceeds the configured maximum size (1 > 0·2^20 bytes), yet the
filter admits the artifact, because the code compares the integer
quotient `len / 1024 / 1024` (which is 0 here) against the maximum. -/
theorem c6_counterexample :
    is_excluded { group_id := "g", artifact_id := "a", version := "1.0",
                  files := [("a-1.0.jar", "jar")] } [] 0 (fun _ => some 1) = false
    ∧ (1 : Nat) > 0 * 1048576 :=
  ⟨rfl, by decide⟩

/-- C6 (amended): the filter rejects an artifact exactly when its groupId
or artifactId contains a configured exclusion substring, or when some
file with suffix exactly `jar` or `war` and readable metadata has
`size / 1024 / 1024 > max_size`, i.e. size at least `(max_size+1)` MiB —
integer division truncates, so merely exceeding `max_size` MiB does not
reject; and a rejected artifact is never enqueued by the scanner, so
none of its files (descriptor included) reaches the upload stage. -/
theorem c6_filter :
    (∀ (art : MavenArtifact) (exclude : List String) (max_size : Nat)
        (sizeOf : String → Option Nat),
      is_excluded art exclude max_size sizeOf = true ↔
        ((∃ pat ∈ exclude, strContains art.artifact_id pat = true
            ∨ strContains art.group_id pat = true)
         ∨ (∃ f ∈ art.files, (f.2 = "jar" ∨ f.2 = "war")
              ∧ ∃ n, sizeOf f.1 = some n ∧ n / 1024 / 1024 > max_size)))
    ∧ (∀ (env : ScanEnv) (st : List (List String) × List MavenArtifact)
        (path : List String) (art : MavenArtifact),
        extract_full_artifact (env.canon path) env.root (env.listing path) = .ok art →
        is_excluded art env.exclude env.max_size env.sizeOf = true →
        scan_step env st path = st) := by
  constructor
  · intro art exclude max_size sizeOf
    simp [is_excluded, List.any_eq_true, size_check_eq]
  · intro env st path art hex hexc
    by_cases hname : (endsW ((path.getLast?).getD "") ".pom"
        || decide (((path.getLast?).getD "") = "pom.xml")) = true
    · rw [scan_step_ok env st path art hname hex, if_pos hexc]
    · exact scan_step_noname env st path hname

/-- C6 witness: a keyword exclusion, a size exclusion at 101 MiB + 1 byte
against a 100 MiB limit, and a scanner step that drops the whole excluded
artifact. -/
theorem c6_witness :
    is_excluded { group_id := "g", artifact_id := "a", version := "1.0",
                  files := [("a-1.0.jar", "jar")] } ["g"] 100 (fun _ => some 1) = true
    ∧ is_excluded { group_id := "g", artifact_id := "a", version := "1.0",
                    files := [("a-1.0.jar", "jar")] } [] 100
        (fun _ => some 105906177) = true
    ∧ scan_step
        ⟨[], fun _ => ["g", "a", "1.0", "a-1.0.pom"], fun _ => ["a-1.0.jar"],
         fun _ => some 1, ["g"], 100⟩ ([], []) ["a-1.0.pom"] = ([], []) :=
  ⟨(c6_filter.1 ⟨"g", "a", "1.0", [("a-1.0.jar", "jar")]⟩ ["g"] 100
      (fun _ => some 1)).mpr
      (Or.inl ⟨"g", by decide, Or.inr (by decide)⟩),
   (c6_filter.1 ⟨"g", "a", "1.0", [("a-1.0.jar", "jar")]⟩ [] 100
      (fun _ => some 105906177)).mpr
      (Or.inr ⟨("a-1.0.jar", "jar"), by decide, Or.inl rfl, 105906177, rfl, by decide⟩),
   c6_filter.2
     ⟨[], fun _ => ["g", "a", "1.0", "a-1.0.pom"], fun _ => ["a-1.0.jar"],
      fun _ => some 1, ["g"], 100⟩ ([], []) ["a-1.0.pom"]
     ⟨"g", "a", "1.0", [("a-1.0.jar", "jar")]⟩ rfl rfl⟩

/-- C7 counterexample: a file recorded with mtime 5 whose mtime is now 7,
processed without force while the remote repository already holds the
object (HEAD success): the run issues the HEAD, records the new mtime and
returns without any PUT — not the claimed "exactly one re-upload attempt
even when the remote already holds the object". -/
theorem c7_counterexample :
    upload_file false [("u", 5)] ⟨some 7, true, some true, some true⟩ "u"
      = (.ok, [.head "u"], [("u", 7), ("u", 5)])
    ∧ HttpCall.put "u" ∉ [HttpCall.head "u"] :=
  ⟨rfl, by decide⟩

/-- C7 (amended): after a recorded mtime stops matching, the next run
without force re-reaches the network for that file; it issues exactly one
PUT attempt only when the remote probe does not report success, and when
the remote already holds the object (HEAD success) it records the new
mtime and skips without any PUT. -/
theorem c7_change_detection :
    ∀ (db : Store) (o : FileOracle) (url : String) (mt old : Nat),
      o.mtime = some mt → dbGet db url = some old → old ≠ mt →
      o.readable = true →
      ((o.head ≠ some true →
          (upload_file false db o url).2.1 = [.head url, .put url])
       ∧ (o.head = some true →
          upload_file false db o url = (.ok, [.head url], save_db_status db url mt))) := by
  intro db o url mt old hm hdb hne hr
  have hdbne : dbGet db url ≠ some mt := by
    rw [hdb]
    intro hcon
    exact hne (Option.some.inj hcon)
  constructor
  · intro hh
    rw [upload_file_transfer db o url mt hm hdbne hh]
    show HttpCall.head url :: (doTransfer url mt o db).2.1 = _
    rw [doTransfer_calls url mt o db hr]
  · intro hh
    exact upload_file_headhit db o url mt hm hdbne hh

/-- C7 witness: with old recorded mtime 5 and new mtime 7, a remote miss
yields exactly one PUT attempt after the HEAD, and a remote hit yields a
record plus skip. -/
theorem c7_witness :
    ((upload_file false [("u", 5)] ⟨some 7, true, some false, some true⟩ "u").2.1
      = [.head "u", .put "u"])
    ∧ (upload_file false [("u", 5)] ⟨some 7, true, some true, some true⟩ "u"
      = (.ok, [.head "u"], save_db_status [("u", 5)] "u" 7)) :=
  ⟨(c7_change_detection [("u", 5)] ⟨some 7, true, some false, some true⟩ "u" 7 5
      rfl rfl (by decide) rfl).1 (by decide),
   (c7_change_detection [("u", 5)] ⟨some 7, true, some true, some true⟩ "u" 7 5
      rfl rfl (by decide) rfl).2 rfl⟩

/-- C8 counterexample: two distinct discovered paths whose canonicalized
form is the same file (symlinked directories `d1` and `d2`) are both
enqueued in one scan — the deduplication map is keyed by the raw
discovered path (`entry.path()`), not the canonical one, so the claim
"at most one of them is enqueued" fails. -/
theorem c8_counterexample :
    (["d1", "x.pom"] : List String) ≠ ["d2", "x.pom"]
    ∧ (fun (_ : List String) => ["g", "a", "1.0", "x.pom"]) ["d1", "x.pom"]
      = (fun (_ : List String) => ["g", "a", "1.0", "x.pom"]) ["d2", "x.pom"]
    ∧ (scan ⟨[], fun _ => ["g", "a", "1.0", "x.pom"], fun _ => [], fun _ => none,
          [], 100⟩
        [["d1", "x.pom"], ["d2", "x.pom"]]).2.length = 2 :=
  ⟨by decide, rfl, rfl⟩

/-- C8 (amended): the scan deduplication succeeds exactly once per
distinct discovered (raw, un-canonicalized) path: a step either leaves
the state unchanged or claims the path and enqueues exactly one
artifact, and a path already claimed is never enqueued again; paths are
not canonicalized before the check, so aliases of the same canonical
file may each be enqueued once. -/
theorem c8_try_claim :
    ∀ (env : ScanEnv) (st : List (List String) × List MavenArtifact)
      (path : List String),
      (path ∈ st.1 → scan_step env st path = st)
      ∧ (scan_step env st path = st
         ∨ ((scan_step env st path).1 = path :: st.1
            ∧ ∃ art, (scan_step env st path).2 = st.2 ++ [art])) := by
  intro env st path
  constructor
  · intro hmem
    by_cases hname : (endsW ((path.getLast?).getD "") ".pom"
        || decide (((path.getLast?).getD "") = "pom.xml")) = true
    · rcases hex : extract_full_artifact (env.canon path) env.root (env.listing path)
        with e | art
      · exact scan_step_err env st path e hname hex
      · rw [scan_step_ok env st path art hname hex]
        by_cases hexc : is_excluded art env.exclude env.max_size env.sizeOf = true
        · rw [if_pos hexc]
        · rw [if_neg hexc, if_pos hmem]
    · exact scan_step_noname env st path hname
  · by_cases hname : (endsW ((path.getLast?).getD "") ".pom"
        || decide (((path.getLast?).getD "") = "pom.xml")) = true
    · rcases hex : extract_full_artifact (env.canon path) env.root (env.listing path)
        with e | art
      · exact Or.inl (scan_step_err env st path e hname hex)
      · by_cases hexc : is_excluded art env.exclude env.max_size env.sizeOf = true
        · exact Or.inl (by rw [scan_step_ok env st path art hname hex, if_pos hexc])
        · by_cases hmem : path ∈ st.1
          · exact Or.inl
              (by rw [scan_step_ok env st path art hname hex, if_neg hexc, if_pos hmem])
          · refine Or.inr ⟨?_, art, ?_⟩
            · rw [scan_step_ok env st path art hname hex, if_neg hexc, if_neg hmem]
            · rw [scan_step_ok env st path art hname hex, if_neg hexc, if_neg hmem]
    · exact Or.inl (scan_step_noname env st path hname)

/-- C8 witness: a path that is already in the registry is dropped by the
next step that discovers it. -/
theorem c8_witness :
    scan_step ⟨[], fun _ => ["g", "a", "1.0", "x.pom"], fun _ => [], fun _ => none,
        [], 100⟩
      ([["d1", "x.pom"]], [⟨"g", "a", "1.0", []⟩]) ["d1", "x.pom"]
      = ([["d1", "x.pom"]], [⟨"g", "a", "1.0", []⟩]) :=
  (c8_try_claim ⟨[], fun _ => ["g", "a", "1.0", "x.pom"], fun _ => [], fun _ => none,
      [], 100⟩
    ([["d1", "x.pom"]], [⟨"g", "a", "1.0", []⟩]) ["d1", "x.pom"]).1 (by decide)

/-- C9: every store mutation of a run goes through `save_db_status`,
which upserts one (targetUrl, mtime) pair — after any single upload and
after a whole run over any artifact queue, every key present before is
still present, so the key set only grows and nothing is ever deleted. -/
theorem c9_store_only_grows :
    (∀ (force : Bool) (db : Store) (o : FileOracle) (url : String),
        (upload_file force db o url).2.2 = db
        ∨ ∃ mt, (upload_file force db o url).2.2 = save_db_status db url mt)
    ∧ (∀ (args : RunArgs) (oracle : String → FileOracle) (arts : List MavenArtifact)
        (db : Store) (k : String),
        k ∈ dbKeys db → k ∈ dbKeys (run_uploads args oracle arts db)) := by
  refine ⟨upload_file_store_cases, ?_⟩
  intro args oracle arts db k hk
  induction arts generalizing db with
  | nil => exact hk
  | cons a rest ih =>
    exact ih _ (process_files_keys_mono args.force _ a oracle a.files db k hk)

/-- C9 witness: a concrete run over one artifact keeps the pre-existing
key `"k"` in the store. -/
theorem c9_witness :
    "k" ∈ dbKeys (run_uploads ⟨"http://r", none, false⟩
      (fun _ => ⟨some 3, true, some false, some true⟩)
      [⟨"g", "a", "1.0", [("a-1.0.pom", "pom")]⟩] [("k", 9)]) :=
  c9_store_only_grows.2 ⟨"http://r", none, false⟩
    (fun _ => ⟨some 3, true, some false, some true⟩)
    [⟨"g", "a", "1.0", [("a-1.0.pom", "pom")]⟩] [("k", 9)] "k" (by decide)

/-- C10 counterexample: a file whose metadata is readable (mtime 3) but
whose contents cannot be read, processed without force against an empty
store and a failing HEAD: `upload_file` returns an error, but only after
the HEAD was already issued — not "before issuing any HTTP request". -/
theorem c10_counterexample :
    upload_file false [] ⟨some 3, false, some false, some true⟩ "u"
      = (.err, [.head "u"], [])
    ∧ ([HttpCall.head "u"] : List HttpCall) ≠ [] :=
  ⟨rfl, by decide⟩

/-- C10 (amended): a metadata (mtime) read failure makes `upload_file`
return an error before any HTTP call and without touching the store; a
contents read failure makes it return an error with no PUT and no store
write, though without force and with a store miss and no HEAD success
the HEAD has already been issued by then (with force, no HTTP at all);
and the caller processes every file regardless of such errors (one
discarded outcome per file). -/
theorem c10_read_failure :
    (∀ (force : Bool) (db : Store) (o : FileOracle) (url : String),
        o.mtime = none → upload_file force db o url = (.err, [], db))
    ∧ (∀ (db : Store) (o : FileOracle) (url : String) (mt : Nat),
        o.mtime = some mt → o.readable = false →
        upload_file true db o url = (.err, [], db))
    ∧ (∀ (db : Store) (o : FileOracle) (url : String) (mt : Nat),
        o.mtime = some mt → o.readable = false →
        dbGet db url ≠ some mt → o.head ≠ some true →
        upload_file false db o url = (.err, [.head url], db))
    ∧ (∀ (force : Bool) (base : String) (art : MavenArtifact)
        (oracle : String → FileOracle) (files : List (String × String)) (db : Store),
        (process_files force base art oracle files db).2.length = files.length) := by
  refine ⟨?_, ?_, ?_, process_files_length⟩
  · intro force db o url hm
    cases force <;> simp [upload_file, hm]
  · intro db o url mt hm hr
    rw [upload_file_force db o url mt hm]
    simp [doTransfer, hr]
  · intro db o url mt hm hr hdb hh
    rw [upload_file_transfer db o url mt hm hdb hh]
    simp [doTransfer, hr]

/-- C10 witness: the three error shapes at concrete inputs, plus a
two-file artifact still yielding two outcomes when the first file's
contents are unreadable. -/
theorem c10_witness :
    (upload_file false [] ⟨none, true, some true, some true⟩ "u" = (.err, [], []))
    ∧ (upload_file true [] ⟨some 3, false, some true, some true⟩ "u" = (.err, [], []))
    ∧ (upload_file false [] ⟨some 3, false, none, some true⟩ "u"
        = (.err, [.head "u"], []))
    ∧ ((process_files false "b" ⟨"g", "a", "1", [("x", "pom"), ("y", "jar")]⟩
          (fun _ => ⟨some 3, false, some false, some true⟩)
          [("x", "pom"), ("y", "jar")] []).2.length = 2) :=
  ⟨c10_read_failure.1 false [] ⟨none, true, some true, some true⟩ "u" rfl,
   c10_read_failure.2.1 [] ⟨some 3, false, some true, some true⟩ "u" 3 rfl rfl,
   c10_read_failure.2.2.1 [] ⟨some 3, false, none, some true⟩ "u" 3 rfl rfl
     (by decide) (by decide),
   c10_read_failure.2.2.2 false "b" ⟨"g", "a", "1", [("x", "pom"), ("y", "jar")]⟩
     (fun _ => ⟨some 3, false, some false, some true⟩) [("x", "pom"), ("y", "jar")] []⟩

end MavenUploader
